import Mathlib

/-!
Verification of the proxyctl library (src/proxyctl.go) against its
natural-language specification.

The Go code is shallowly embedded:

* Go strings and byte slices are `List Char` (all data handled by the
  program is ASCII, so bytes and characters coincide).
* Machine integers are `Nat` (or `Int` where Go's signed `int` matters),
  with explicit `% 2^w` at the conversions the code performs
  (`uint16(...)`, `uint8(...)`).
* `strconv.Itoa` / `strconv.Atoi` are modelled by `itoa` / `atoi` below.
  `atoi` models the syntax-error behaviour that the code relies on
  (`port, _ := strconv.Atoi(...)` yields 0 on a malformed string); the
  int64 range-clamping of `Atoi` is not modelled, no claim depends on it.
* `net.IP` is modelled by `Option IPv4`, restricted to well-formed IPv4
  addresses; `net.IP.String` / `net.ParseIP` are modelled by `ipString` /
  `parseIP` (dotted-quad, empty string for `nil`, matching `formatIP`).
* The HNS store (`hcn` package) is external to the repository; it is
  modelled by a record of response functions `HcnModel`, and the policy
  payloads travel as structured values (the `json.Marshal` /
  `json.Unmarshal` steps, which on these struct types are inverse and
  error-free, are the identity in the model).
* `bufio.Scanner` with the custom split function of
  `GetEndpointFromContainer` is modelled by `scanTokens`, which feeds the
  complete captured output to the split function, exactly as the code
  feeds a fully captured `bytes.Buffer`.
-/

namespace Proxyctl

/-! ## Decimal strings: model of strconv.Itoa and strconv.Atoi -/

/-- Character of a single decimal digit (0-9). -/
def digitChar (d : Nat) : Char := Char.ofNat (48 + d)

/-- Numeric value of a decimal digit character, none for a non-digit. -/
def digitVal (c : Char) : Option Nat :=
  if '0' ≤ c ∧ c ≤ '9' then some (c.toNat - 48) else none

/-- Digits of `n` in base 10, most significant first, prepended to `acc`.
The fuel argument only bounds the recursion; `fuel ≥ n` is always enough
since the value shrinks by a factor of ten each step. -/
def itoaFuel : Nat → Nat → List Char → List Char
  | 0, _, acc => acc
  | _ + 1, 0, acc => acc
  | fuel + 1, n + 1, acc =>
    itoaFuel fuel ((n + 1) / 10) (digitChar ((n + 1) % 10) :: acc)

/-- Model of strconv.Itoa on the non-negative values the code passes it. -/
def itoa (n : Nat) : List Char :=
  if n = 0 then ['0'] else itoaFuel n n []

/-- Left-to-right decimal accumulator; none as soon as a non-digit is hit. -/
def parseDigitsAux (acc : Nat) : List Char → Option Nat
  | [] => some acc
  | c :: rest =>
    match digitVal c with
    | some d => parseDigitsAux (acc * 10 + d) rest
    | none => none

/-- Value of a non-empty all-digit string, none otherwise. -/
def parseDigits (s : List Char) : Option Nat :=
  match s with
  | [] => none
  | _ => parseDigitsAux 0 s

/-- Model of strconv.Atoi as used by the code: the returned error is
discarded, so a string that is not a (possibly signed) run of digits
contributes the value 0. -/
def atoi (s : List Char) : Int :=
  if s.head? = some '+' then ((parseDigits s.tail).getD 0 : Nat)
  else if s.head? = some '-' then -(((parseDigits s.tail).getD 0 : Nat) : Int)
  else ((parseDigits s).getD 0 : Nat)

/-- Go conversion `uint16(i)` from a signed integer (two's complement). -/
def uint16OfInt (i : Int) : Nat := (i % 65536).toNat

/-- Go conversion `uint8(i)` from a signed integer (two's complement). -/
def uint8OfInt (i : Int) : Nat := (i % 256).toNat

/-- Go conversion `uint8(n)` from a wider unsigned value. -/
def uint8OfNat (n : Nat) : Nat := n % 256

/-! ## IPv4 addresses: model of net.IP, net.IP.String and net.ParseIP -/

/-- A well-formed IPv4 address (the address family exercised by the
claims; `net.IP` in the source can also carry IPv6, which no claim
touches). -/
structure IPv4 where
  o1 : Fin 256
  o2 : Fin 256
  o3 : Fin 256
  o4 : Fin 256
deriving DecidableEq

/-- Model of net.IP.String for a well-formed IPv4 address: dotted quad. -/
def ipString (ip : IPv4) : List Char :=
  itoa ip.o1.val ++ '.' :: (itoa ip.o2.val ++ '.' :: (itoa ip.o3.val ++ '.' :: itoa ip.o4.val))

/-- Embeds formatIP (src/proxyctl.go lines 270-275): nil renders as the
empty string, otherwise the address renders via String(). -/
def formatIP : Option IPv4 → List Char
  | none => []
  | some ip => ipString ip

/-- Splits a character list on the dot separator. -/
def splitOnDot : List Char → List (List Char)
  | [] => [[]]
  | c :: rest =>
    if c = '.' then [] :: splitOnDot rest
    else
      match splitOnDot rest with
      | [] => [[c]]
      | p :: ps => (c :: p) :: ps

/-- One dotted-quad component: a non-empty digit run, value at most 255,
with no leading zero (except the single digit 0), as net.ParseIP checks. -/
def parseOctet (s : List Char) : Option Nat :=
  match parseDigits s with
  | none => none
  | some v =>
    if v ≤ 255 ∧ (s = ['0'] ∨ s.head? ≠ some '0') then some v else none

/-- Model of net.ParseIP restricted to IPv4: four valid dotted-quad
components; anything else (in particular the empty string) is nil. -/
def parseIP (s : List Char) : Option IPv4 :=
  match splitOnDot s with
  | [p1, p2, p3, p4] =>
    match parseOctet p1, parseOctet p2, parseOctet p3, parseOctet p4 with
    | some v1, some v2, some v3, some v4 =>
      if h : v1 < 256 ∧ v2 < 256 ∧ v3 < 256 ∧ v4 < 256 then
        some ⟨⟨v1, h.1⟩, ⟨v2, h.2.1⟩, ⟨v3, h.2.2.1⟩, ⟨v4, h.2.2.2⟩⟩
      else none
    | _, _, _, _ => none
  | _ => none

/-! ## Data model: Policy, the hcn wire schema, and the external store -/

/-- Embeds the Policy struct (src/proxyctl.go lines 34-57). Field types:
ProxyPort is uint16, CompartmentID uint32, Priority uint8 and Protocol
uint8 in Go; they are Nat here, with the Go range appearing as a
hypothesis where a theorem needs it. -/
structure Policy where
  ProxyPort : Nat
  UserSID : String
  CompartmentID : Nat
  LocalAddr : Option IPv4
  RemoteAddr : Option IPv4
  Priority : Nat
  Protocol : Nat
deriving DecidableEq

/-- The only protocol supported by the driver (src/proxyctl.go line 30). -/
def TCP : Nat := 6

/-- Embeds hcn.FiveTuple as populated by AddPolicy; the port sub-fields the
code never assigns (left at their zero value, the empty string) are
omitted. Priority is uint16 in hcn. -/
structure FiveTuple where
  LocalAddresses : List Char
  RemoteAddresses : List Char
  Protocols : List Char
  Priority : Nat
deriving DecidableEq

/-- Opaque model of the hcn.ProxyTypeWFP constant; the code only ever
writes it and never reads it back, so its concrete value is irrelevant. -/
def ProxyTypeWFP : String := "WFP"

/-- Embeds hcn.L4ProxyPolicySetting as populated by AddPolicy and read by
hcnPolicyToAPIPolicy. Port and Protocols are decimal strings on the wire;
CompartmentID is uint32. -/
structure L4ProxyPolicySetting where
  ProxyType : String
  Port : List Char
  UserSID : String
  CompartmentID : Nat
  FilterTuple : FiveTuple
deriving DecidableEq

/-- Model of the hcn.L4Proxy kind tag (the string constant of hcsshim). -/
def L4Proxy : String := "L4Proxy"

/-- Embeds hcn.EndpointPolicy, the store-level envelope of a kind tag plus
the serialized settings payload. The Go field named Type is rendered as
PolicyKind because Type is reserved in Lean; Settings holds the decoded
payload value (marshalling is the identity in the model). -/
structure EndpointPolicy where
  PolicyKind : String
  Settings : L4ProxyPolicySetting
deriving DecidableEq

/-- Embeds hcn.PolicyEndpointRequest as built by AddPolicy / ClearPolicies. -/
structure PolicyEndpointRequest where
  Policies : List EndpointPolicy
deriving DecidableEq

/-- Model of the hcn.EndpointResourceTypePolicy constant. -/
def EndpointResourceTypePolicy : String := "Policy"

/-- Model of the hcn.RequestTypeRemove constant. -/
def RequestTypeRemove : String := "Remove"

/-- Model of the hcn.RequestTypeAdd constant. -/
def RequestTypeAdd : String := "Add"

/-- Embeds hcn.ModifyEndpointSettingRequest as built by ClearPolicies;
Settings holds the marshalled policy request (identity in the model). -/
structure ModifyEndpointSettingRequest where
  ResourceType : String
  RequestType : String
  Settings : PolicyEndpointRequest
deriving DecidableEq

/-- Model of an hcn.HostComputeEndpoint as far as the code reads it: its
identifier and its ordered policy list. -/
structure HostComputeEndpoint where
  Id : String
  Policies : List EndpointPolicy
deriving DecidableEq

/-- Response behaviour of the external HNS store (the hcn package is an
external collaborator, spec section 6): how it answers the three calls the
code makes. Errors are strings, as in Go. -/
structure HcnModel where
  getEndpointByID : String → Except String HostComputeEndpoint
  applyPolicy : HostComputeEndpoint → PolicyEndpointRequest → Except String Unit
  modifyEndpointSettings : String → ModifyEndpointSettingRequest → Except String Unit

/-- One externally-visible store interaction, recorded in order. -/
inductive StoreOp where
  | getEndpointByID : String → StoreOp
  | applyPolicy : String → PolicyEndpointRequest → StoreOp
  | modifyEndpointSettings : String → ModifyEndpointSettingRequest → StoreOp
deriving DecidableEq

/-! ## The library operations -/

/-- Embeds validatePolicy (src/proxyctl.go lines 261-266): some error
message iff the port is zero. -/
def validatePolicy (policy : Policy) : Option String :=
  if policy.ProxyPort = 0 then some "policy has invalid proxy port number 0"
  else none

/-- Embeds the body of AddPolicy that builds the wire record
(src/proxyctl.go lines 68-82): the protocol is first overwritten with TCP,
then every field is rendered into the hcn schema. -/
def addPolicySetting (policy : Policy) : L4ProxyPolicySetting :=
  let policy' := { policy with Protocol := TCP }
  { ProxyType := ProxyTypeWFP
    Port := itoa policy'.ProxyPort
    UserSID := policy'.UserSID
    CompartmentID := policy'.CompartmentID
    FilterTuple :=
      { LocalAddresses := formatIP policy'.LocalAddr
        RemoteAddresses := formatIP policy'.RemoteAddr
        Protocols := itoa policy'.Protocol
        Priority := policy'.Priority } }

/-- Embeds AddPolicy (src/proxyctl.go lines 63-104) over the store model,
returning the result together with the ordered list of store interactions
that were attempted. json.Marshal of the setting cannot fail on this
struct type and is the identity in the model. -/
def AddPolicy (hcn : HcnModel) (hnsEndpointID : String) (policy : Policy) :
    Except String Unit × List StoreOp :=
  match validatePolicy policy with
  | some err => (.error err, [])
  | none =>
    let endpointPolicy : EndpointPolicy :=
      { PolicyKind := L4Proxy, Settings := addPolicySetting policy }
    let request : PolicyEndpointRequest := { Policies := [endpointPolicy] }
    match hcn.getEndpointByID hnsEndpointID with
    | .error e => (.error e, [StoreOp.getEndpointByID hnsEndpointID])
    | .ok endpoint =>
      match hcn.applyPolicy endpoint request with
      | .error e =>
        (.error e,
          [StoreOp.getEndpointByID hnsEndpointID,
           StoreOp.applyPolicy endpoint.Id request])
      | .ok _ =>
        (.ok (),
          [StoreOp.getEndpointByID hnsEndpointID,
           StoreOp.applyPolicy endpoint.Id request])

/-- Embeds listPolicies (src/proxyctl.go lines 217-231): fetch the
endpoint and keep exactly the policies whose kind tag is L4Proxy. -/
def listPolicies (hcn : HcnModel) (hnsEndpointID : String) :
    Except String (List EndpointPolicy) :=
  match hcn.getEndpointByID hnsEndpointID with
  | .error e => .error e
  | .ok endpoint =>
    .ok (endpoint.Policies.filter (fun policy => policy.PolicyKind == L4Proxy))

/-- Embeds ClearPolicies (src/proxyctl.go lines 125-147). The Go function
returns the pair (numRemoved, err); the final statement returns
len(policies) alongside whatever ModifyEndpointSettings returned, so the
count is reported even when the remove call fails. -/
def ClearPolicies (hcn : HcnModel) (hnsEndpointID : String) : Nat × Option String :=
  match listPolicies hcn hnsEndpointID with
  | .error e => (0, some e)
  | .ok policies =>
    let policyReq : PolicyEndpointRequest := { Policies := policies }
    let modifyReq : ModifyEndpointSettingRequest :=
      { ResourceType := EndpointResourceTypePolicy
        RequestType := RequestTypeRemove
        Settings := policyReq }
    match hcn.modifyEndpointSettings hnsEndpointID modifyReq with
    | .ok _ => (policies.length, none)
    | .error e => (policies.length, some e)

/-- Modelled from the spec: the effect on the endpoint's policy list of
the external store honouring a ModifyEndpointSettings remove request
(spec section 6, modifySettings with addOrRemove = remove) - every policy
record named in the request is deleted, the rest are untouched. The store
itself is an external collaborator, not code of this repository. -/
def removePolicies (current request : List EndpointPolicy) : List EndpointPolicy :=
  current.filter (fun policy => decide (policy ∉ request))

/-- Embeds the field extraction of hcnPolicyToAPIPolicy
(src/proxyctl.go lines 240-256), after the kind check: the discarded
strconv errors make malformed numeric strings decode as zero, and the
uint16 / uint8 conversions truncate. -/
def hcnPolicySettingToAPIPolicy (hcnPolicySetting : L4ProxyPolicySetting) : Policy :=
  let port := atoi hcnPolicySetting.Port
  let protocol := atoi hcnPolicySetting.FilterTuple.Protocols
  { ProxyPort := uint16OfInt port
    UserSID := hcnPolicySetting.UserSID
    CompartmentID := hcnPolicySetting.CompartmentID
    LocalAddr := parseIP hcnPolicySetting.FilterTuple.LocalAddresses
    RemoteAddr := parseIP hcnPolicySetting.FilterTuple.RemoteAddresses
    Priority := uint8OfNat hcnPolicySetting.FilterTuple.Priority
    Protocol := uint8OfInt protocol }

/-- Embeds hcnPolicyToAPIPolicy (src/proxyctl.go lines 235-257): the Go
function panics when the envelope's kind tag is not L4Proxy; the panic
branch is rendered as none. -/
def hcnPolicyToAPIPolicy (hcnPolicy : EndpointPolicy) : Option Policy :=
  if hcnPolicy.PolicyKind = L4Proxy then
    some (hcnPolicySettingToAPIPolicy hcnPolicy.Settings)
  else none

/-! ## The stream scanner of GetEndpointFromContainer -/

/-- The boundary marker of the split function (src/proxyctl.go line 175):
a newline followed by the closing-object character. -/
def endOfEndpoint : List Char := ['\n', '}']

/-- Model of bytes.Index(data, endOfEndpoint): index of the first
occurrence of the two-byte marker, none when absent. -/
def findMarker : List Char → Option Nat
  | [] => none
  | [_] => none
  | a :: b :: rest =>
    if a = '\n' ∧ b = '}' then some 0
    else (findMarker (b :: rest)).map (· + 1)

/-- Result of one call to a bufio split function: how many bytes to
advance and the token produced, if any. -/
structure SplitRes where
  advance : Nat
  token : Option (List Char)
deriving DecidableEq

/-- Embeds the anonymous bufio.SplitFunc (src/proxyctl.go lines 174-189):
no data at EOF ends the scan; a marker found at offset i yields the
buffer's first i + len(endOfEndpoint) + 1 bytes and advances by the same
amount; otherwise more data is requested. The token slice data[:advance]
is rendered as take, whose value is only observable when advance fits in
the buffer (bufio discards the token otherwise). -/
def splitEndpoint (data : List Char) (atEOF : Bool) : SplitRes :=
  if atEOF = true ∧ data = [] then ⟨0, none⟩
  else
    match findMarker data with
    | some i => ⟨i + endOfEndpoint.length + 1, some (data.take (i + endOfEndpoint.length + 1))⟩
    | none => ⟨0, none⟩

/-- Driver loop of bufio.Scanner over fully captured input (the code scans
a bytes.Buffer holding the complete hnsdiag output, so every call sees all
remaining bytes and atEOF): a produced token is appended and the buffer
advances, a requested advance larger than the remaining data stops the
scan with ErrAdvanceTooFar and no token, and no token at EOF ends the
scan. The fuel only bounds the recursion; length + 1 is always enough
because every produced token advances by at least one byte. -/
def scanTokensFuel : Nat → List Char → List (List Char)
  | 0, _ => []
  | fuel + 1, data =>
    match splitEndpoint data true with
    | ⟨adv, some tok⟩ =>
      if 0 < adv ∧ adv ≤ data.length then tok :: scanTokensFuel fuel (data.drop adv)
      else []
    | ⟨_, none⟩ => []

/-- The token sequence the scanner yields on the given complete input. -/
def scanTokens (data : List Char) : List (List Char) :=
  scanTokensFuel (data.length + 1) data

/-! ## The container-to-endpoint resolver -/

/-- Embeds the hnsEndpoint record decoded from each token
(src/proxyctl.go lines 192-195): an endpoint identifier and the list of
attached container identifiers. -/
structure HnsEndpoint where
  ID : String
  SharedContainers : List String
deriving DecidableEq

/-- Embeds the matching loop of GetEndpointFromContainer
(src/proxyctl.go lines 191-213) over the decoded records, in stream
order: the first record whose attachment list contains the container
identifier wins; an exhausted stream is the not-found error. The hnsdiag
invocation and the per-token json.Unmarshal are external steps that
produce the record list. -/
def GetEndpointFromContainer (containerID : String) :
    List HnsEndpoint → Except String String
  | [] => .error "could not find an endpoint attached to that container"
  | endpoint :: rest =>
    if endpoint.SharedContainers.contains containerID then .ok endpoint.ID
    else GetEndpointFromContainer containerID rest

/-! ## Auxiliary definitions used by the statements and proofs -/

/-- Ten to the number of decimal digits that itoaFuel emits for `n`. -/
def tenPowDigits : Nat → Nat → Nat
  | 0, _ => 1
  | _ + 1, 0 => 1
  | fuel + 1, n + 1 => tenPowDigits fuel ((n + 1) / 10) * 10

/-- One well-formed record as it sits in the hnsdiag stream: the record
body (which must not contain the marker), its terminal newline plus
closing brace, and the newline hnsdiag prints after the closing brace. -/
def segOf (core : List Char) : List Char := core ++ ['\n', '}', '\n']

/-- The string is not a valid decimal integer in the sense of
strconv.Atoi: after the optional single leading sign, the digit run fails
to parse (it is empty or contains a non-digit). -/
def malformedInt (s : List Char) : Prop :=
  parseDigits (if s.head? = some '+' ∨ s.head? = some '-' then s.tail else s) = none

/-! ## Sample data used by the closed witness instances -/

/-- Fixture: a proxy-kind policy record with the given port. -/
def sampleProxyPolicy (port : Nat) : EndpointPolicy :=
  { PolicyKind := L4Proxy
    Settings :=
      { ProxyType := ProxyTypeWFP
        Port := itoa port
        UserSID := ""
        CompartmentID := 0
        FilterTuple :=
          { LocalAddresses := [], RemoteAddresses := [], Protocols := ['6'], Priority := 0 } } }

/-- Fixture: a policy record of a non-proxy kind. -/
def sampleAclPolicy : EndpointPolicy :=
  { PolicyKind := "ACL"
    Settings :=
      { ProxyType := ""
        Port := []
        UserSID := ""
        CompartmentID := 0
        FilterTuple :=
          { LocalAddresses := [], RemoteAddresses := [], Protocols := [], Priority := 0 } } }

/-- Fixture: an endpoint holding three proxy-kind policies and one
non-proxy-kind policy, as in the spec's clear-all example. -/
def sampleEndpoint : HostComputeEndpoint :=
  { Id := "ep"
    Policies := [sampleProxyPolicy 1, sampleProxyPolicy 2, sampleProxyPolicy 3, sampleAclPolicy] }

/-- Fixture: a store that knows the sample endpoint and accepts every
request. -/
def sampleStore : HcnModel :=
  { getEndpointByID := fun _ => .ok sampleEndpoint
    applyPolicy := fun _ _ => .ok ()
    modifyEndpointSettings := fun _ _ => .ok () }

/-- Fixture: a store that knows the sample endpoint but fails every
modify-settings call. -/
def sampleFailingStore : HcnModel :=
  { getEndpointByID := fun _ => .ok sampleEndpoint
    applyPolicy := fun _ _ => .ok ()
    modifyEndpointSettings := fun _ _ => .error "store rejected the remove request" }

/-! ## Lemmas: the decimal codec round-trips -/

theorem digitVal_digitChar (d : Nat) (h : d < 10) : digitVal (digitChar d) = some d := by
  interval_cases d <;> decide

theorem digitChar_isDigit (d : Nat) (h : d < 10) :
    '0' ≤ digitChar d ∧ digitChar d ≤ '9' := by
  interval_cases d <;> decide

theorem parseDigitsAux_itoaFuel :
    ∀ fuel n acc a, n ≤ fuel →
      parseDigitsAux a (itoaFuel fuel n acc) =
        parseDigitsAux (a * tenPowDigits fuel n + n) acc := by
  intro fuel
  induction fuel with
  | zero =>
    intro n acc a hn
    have hn0 : n = 0 := Nat.le_zero.mp hn
    subst hn0
    simp [itoaFuel, tenPowDigits]
  | succ fuel ih =>
    intro n acc a hn
    match n with
    | 0 => simp [itoaFuel, tenPowDigits]
    | m + 1 =>
      have hdiv : (m + 1) / 10 ≤ fuel := by omega
      rw [itoaFuel, ih ((m + 1) / 10) _ a hdiv]
      rw [parseDigitsAux, digitVal_digitChar ((m + 1) % 10) (by omega)]
      have hsum : (a * tenPowDigits fuel ((m + 1) / 10) + (m + 1) / 10) * 10 + (m + 1) % 10 =
          a * (tenPowDigits fuel ((m + 1) / 10) * 10) + (m + 1) := by
        have hdm : (m + 1) / 10 * 10 + (m + 1) % 10 = m + 1 := by omega
        calc (a * tenPowDigits fuel ((m + 1) / 10) + (m + 1) / 10) * 10 + (m + 1) % 10
            = a * (tenPowDigits fuel ((m + 1) / 10) * 10) +
                ((m + 1) / 10 * 10 + (m + 1) % 10) := by ring
          _ = a * (tenPowDigits fuel ((m + 1) / 10) * 10) + (m + 1) := by rw [hdm]
      show parseDigitsAux
          ((a * tenPowDigits fuel ((m + 1) / 10) + (m + 1) / 10) * 10 + (m + 1) % 10) acc =
        parseDigitsAux (a * tenPowDigits (fuel + 1) (m + 1) + (m + 1)) acc
      rw [hsum, tenPowDigits]

theorem itoaFuel_cons :
    ∀ fuel n acc, 0 < n → n ≤ fuel →
      ∃ d tail, 0 < d ∧ d < 10 ∧ itoaFuel fuel n acc = digitChar d :: tail := by
  intro fuel
  induction fuel with
  | zero => intro n acc hn hle; omega
  | succ fuel ih =>
    intro n acc hn hle
    match n with
    | 0 => omega
    | m + 1 =>
      rw [itoaFuel]
      by_cases hq : (m + 1) / 10 = 0
      · have hlt : m + 1 < 10 := by omega
        rw [hq]
        refine ⟨(m + 1) % 10, acc, by omega, by omega, ?_⟩
        match fuel with
        | 0 => rfl
        | _ + 1 => rfl
      · exact ih ((m + 1) / 10) _ (by omega) (by omega)

theorem parseDigits_itoa (n : Nat) : parseDigits (itoa n) = some n := by
  by_cases h0 : n = 0
  · subst h0; decide
  · rw [itoa, if_neg h0]
    obtain ⟨d, tail, _, _, hcons⟩ :=
      itoaFuel_cons n n [] (Nat.pos_of_ne_zero h0) le_rfl
    rw [hcons, show parseDigits (digitChar d :: tail) = parseDigitsAux 0 (digitChar d :: tail) from rfl,
      ← hcons, parseDigitsAux_itoaFuel n n [] 0 le_rfl]
    simp [parseDigitsAux]

theorem itoa_head (n : Nat) (h : 0 < n) :
    ∃ d tail, 0 < d ∧ d < 10 ∧ itoa n = digitChar d :: tail := by
  rw [itoa, if_neg (by omega)]
  exact itoaFuel_cons n n [] h le_rfl

theorem atoi_itoa (n : Nat) : atoi (itoa n) = (n : Int) := by
  by_cases h0 : n = 0
  · subst h0; decide
  · obtain ⟨d, tail, hd0, hd10, hcons⟩ := itoa_head n (Nat.pos_of_ne_zero h0)
    have hplus : (itoa n).head? ≠ some '+' := by
      rw [hcons]
      intro hcontra
      have : digitChar d = '+' := by simpa using hcontra
      interval_cases d <;> simp_all <;> exact absurd this (by decide)
    have hminus : (itoa n).head? ≠ some '-' := by
      rw [hcons]
      intro hcontra
      have : digitChar d = '-' := by simpa using hcontra
      interval_cases d <;> simp_all <;> exact absurd this (by decide)
    rw [atoi, if_neg hplus, if_neg hminus, parseDigits_itoa]
    rfl

/-! ## Lemmas: the address codec round-trips -/

theorem mem_itoaFuel_isDigit :
    ∀ fuel n acc, (∀ c ∈ acc, '0' ≤ c ∧ c ≤ '9') →
      ∀ c ∈ itoaFuel fuel n acc, '0' ≤ c ∧ c ≤ '9' := by
  intro fuel
  induction fuel with
  | zero => intro n acc hacc c hc; exact hacc c hc
  | succ fuel ih =>
    intro n acc hacc c hc
    match n with
    | 0 => exact hacc c hc
    | m + 1 =>
      rw [itoaFuel] at hc
      refine ih ((m + 1) / 10) _ ?_ c hc
      intro x hx
      rcases List.mem_cons.mp hx with hx | hx
      · subst hx; exact digitChar_isDigit _ (by omega)
      · exact hacc x hx

theorem mem_itoa_isDigit (n : Nat) : ∀ c ∈ itoa n, '0' ≤ c ∧ c ≤ '9' := by
  by_cases h0 : n = 0
  · subst h0; decide
  · rw [itoa, if_neg h0]
    exact mem_itoaFuel_isDigit n n [] (by simp)

theorem dot_not_mem_itoa (n : Nat) : '.' ∉ itoa n := by
  intro h
  have := (mem_itoa_isDigit n '.' h).1
  exact absurd this (by decide)

theorem splitOnDot_no_dot (l : List Char) (h : '.' ∉ l) : splitOnDot l = [l] := by
  induction l with
  | nil => rfl
  | cons c rest ih =>
    have hc : c ≠ '.' := fun hc => h (hc ▸ List.mem_cons_self c rest)
    have hrest : '.' ∉ rest := fun hr => h (List.mem_cons_of_mem c hr)
    rw [splitOnDot, if_neg hc, ih hrest]

theorem splitOnDot_append (l rest : List Char) (h : '.' ∉ l) :
    splitOnDot (l ++ '.' :: rest) = l :: splitOnDot rest := by
  induction l with
  | nil => simp [splitOnDot]
  | cons c t ih =>
    have hc : c ≠ '.' := fun hc => h (hc ▸ List.mem_cons_self c t)
    have ht : '.' ∉ t := fun hr => h (List.mem_cons_of_mem c hr)
    rw [List.cons_append, splitOnDot, if_neg hc, ih ht]

theorem parseOctet_itoa (v : Nat) (h : v ≤ 255) : parseOctet (itoa v) = some v := by
  rw [parseOctet, parseDigits_itoa]
  show (if v ≤ 255 ∧ (itoa v = ['0'] ∨ (itoa v).head? ≠ some '0') then some v else none) =
    some v
  by_cases h0 : v = 0
  · subst h0; decide
  · obtain ⟨d, tail, hd0, hd10, hcons⟩ := itoa_head v (Nat.pos_of_ne_zero h0)
    have hhead : (itoa v).head? ≠ some '0' := by
      rw [hcons]
      intro hcontra
      have : digitChar d = '0' := by simpa using hcontra
      interval_cases d <;> simp_all <;> exact absurd this (by decide)
    rw [if_pos ⟨h, Or.inr hhead⟩]

theorem parseIP_ipString (ip : IPv4) : parseIP (ipString ip) = some ip := by
  obtain ⟨o1, o2, o3, o4⟩ := ip
  have hsplit : splitOnDot (ipString ⟨o1, o2, o3, o4⟩) =
      [itoa o1.val, itoa o2.val, itoa o3.val, itoa o4.val] := by
    rw [ipString,
      splitOnDot_append _ _ (dot_not_mem_itoa _),
      splitOnDot_append _ _ (dot_not_mem_itoa _),
      splitOnDot_append _ _ (dot_not_mem_itoa _),
      splitOnDot_no_dot _ (dot_not_mem_itoa _)]
  have h1 := parseOctet_itoa o1.val (by omega)
  have h2 := parseOctet_itoa o2.val (by omega)
  have h3 := parseOctet_itoa o3.val (by omega)
  have h4 := parseOctet_itoa o4.val (by omega)
  simp only [parseIP, hsplit, h1, h2, h3, h4]
  rw [dif_pos ⟨o1.isLt, o2.isLt, o3.isLt, o4.isLt⟩]

theorem parseIP_formatIP (a : Option IPv4) : parseIP (formatIP a) = a := by
  match a with
  | none => rfl
  | some ip => rw [formatIP, parseIP_ipString]

/-! ## Lemmas: the boundary-marker scanner -/

theorem findMarker_append (core rest : List Char) (h : findMarker core = none) :
    findMarker (core ++ '\n' :: '}' :: rest) = some core.length := by
  induction core with
  | nil => simp [findMarker]
  | cons c cs ih =>
    match cs with
    | [] =>
      rw [List.cons_append, List.nil_append, findMarker]
      rw [if_neg (by simp), findMarker, if_pos ⟨rfl, rfl⟩]
      rfl
    | c2 :: t =>
      rw [findMarker] at h
      by_cases hc : c = '\n' ∧ c2 = '}'
      · rw [if_pos hc] at h; exact absurd h (by simp)
      · rw [if_neg hc] at h
        have ht : findMarker (c2 :: t) = none := by
          match hm : findMarker (c2 :: t) with
          | none => rfl
          | some i => rw [hm] at h; exact absurd h (by simp)
        have hih := ih ht
        rw [List.cons_append] at hih
        rw [List.cons_append, List.cons_append, findMarker, if_neg hc, hih]
        simp

theorem splitEndpoint_found (data : List Char) (i : Nat) (hne : data ≠ [])
    (h : findMarker data = some i) :
    splitEndpoint data true = ⟨i + 3, some (data.take (i + 3))⟩ := by
  rw [splitEndpoint, if_neg (by simp [hne]), h]
  rfl

theorem splitEndpoint_not_found (data : List Char) (h : findMarker data = none) :
    splitEndpoint data true = ⟨0, none⟩ := by
  match data with
  | [] => rfl
  | c :: rest => rw [splitEndpoint, if_neg (by simp), h]

theorem scanTokensFuel_some (fuel : Nat) (data tok : List Char) (adv : Nat)
    (h : splitEndpoint data true = ⟨adv, some tok⟩) :
    scanTokensFuel (fuel + 1) data =
      if 0 < adv ∧ adv ≤ data.length then tok :: scanTokensFuel fuel (data.drop adv)
      else [] := by
  rw [scanTokensFuel, h]

theorem scanTokensFuel_none (fuel : Nat) (data : List Char) (adv : Nat)
    (h : splitEndpoint data true = ⟨adv, none⟩) :
    scanTokensFuel (fuel + 1) data = [] := by
  rw [scanTokensFuel, h]

theorem scanTokensFuel_congr :
    ∀ fuel1 fuel2 data, data.length < fuel1 → data.length < fuel2 →
      scanTokensFuel fuel1 data = scanTokensFuel fuel2 data := by
  intro fuel1
  induction fuel1 with
  | zero => intro fuel2 data h1 h2; omega
  | succ fuel1 ih =>
    intro fuel2 data h1 h2
    match fuel2 with
    | 0 => omega
    | fuel2 + 1 =>
      rcases hsp : splitEndpoint data true with ⟨adv, tokOpt⟩
      match tokOpt with
      | none => rw [scanTokensFuel_none fuel1 data adv hsp,
          scanTokensFuel_none fuel2 data adv hsp]
      | some tok =>
        rw [scanTokensFuel_some fuel1 data tok adv hsp,
          scanTokensFuel_some fuel2 data tok adv hsp]
        by_cases hcond : 0 < adv ∧ adv ≤ data.length
        · rw [if_pos hcond, if_pos hcond]
          have hdl : (data.drop adv).length = data.length - adv := List.length_drop adv data
          rw [ih fuel2 (data.drop adv) (by omega) (by omega)]
        · rw [if_neg hcond, if_neg hcond]

theorem scanTokens_no_marker (data : List Char) (h : findMarker data = none) :
    scanTokens data = [] := by
  rw [scanTokens, scanTokensFuel_none data.length data 0 (splitEndpoint_not_found data h)]

theorem length_append_marker (core rest : List Char) :
    (core ++ '\n' :: '}' :: '\n' :: rest).length = core.length + 3 + rest.length := by
  simp; omega

theorem scanTokens_cons (core rest : List Char) (h : findMarker core = none) :
    scanTokens (core ++ '\n' :: '}' :: '\n' :: rest) =
      (core ++ ['\n', '}', '\n']) :: scanTokens rest := by
  have hfind : findMarker (core ++ '\n' :: '}' :: '\n' :: rest) = some core.length :=
    findMarker_append core ('\n' :: rest) h
  have hlen := length_append_marker core rest
  have hsp := splitEndpoint_found (core ++ '\n' :: '}' :: '\n' :: rest) core.length
    (by simp) hfind
  have hcond : 0 < core.length + 3 ∧
      core.length + 3 ≤ (core ++ '\n' :: '}' :: '\n' :: rest).length := by
    rw [hlen]; omega
  have htake : (core ++ '\n' :: '}' :: '\n' :: rest).take (core.length + 3) =
      core ++ ['\n', '}', '\n'] := by
    rw [List.take_append_eq_append_take, List.take_of_length_le (by omega)]
    congr 1
    have h3 : core.length + 3 - core.length = 3 := by omega
    rw [h3]
    rfl
  have hdrop : (core ++ '\n' :: '}' :: '\n' :: rest).drop (core.length + 3) = rest := by
    rw [List.drop_append_eq_append_drop, List.drop_of_length_le (by omega)]
    have h3 : core.length + 3 - core.length = 3 := by omega
    rw [h3]
    rfl
  rw [scanTokens, hlen,
    scanTokensFuel_some (core.length + 3 + rest.length) _ _ _ hsp,
    if_pos hcond, htake, hdrop,
    scanTokensFuel_congr (core.length + 3 + rest.length) (rest.length + 1) rest
      (by omega) (by omega), scanTokens]

theorem scanTokens_join_frag :
    ∀ (cores : List (List Char)) (frag : List Char),
      (∀ core ∈ cores, findMarker core = none) → findMarker frag = none →
      scanTokens ((cores.map segOf).flatten ++ frag) = cores.map segOf := by
  intro cores
  induction cores with
  | nil =>
    intro frag _ hfrag
    exact scanTokens_no_marker frag hfrag
  | cons c cs ih =>
    intro frag hcores hfrag
    have hc : findMarker c = none := hcores c (List.mem_cons_self c cs)
    have hcs : ∀ core ∈ cs, findMarker core = none :=
      fun x hx => hcores x (List.mem_cons_of_mem c hx)
    show scanTokens ((segOf c ++ ((cs.map segOf).flatten)) ++ frag) = segOf c :: cs.map segOf
    rw [List.append_assoc, segOf, List.append_assoc]
    show scanTokens (c ++ '\n' :: '}' :: '\n' :: ((cs.map segOf).flatten ++ frag)) =
      (c ++ ['\n', '}', '\n']) :: cs.map segOf
    rw [scanTokens_cons c _ hc, ih frag hcs hfrag]

theorem scanTokens_join (cores : List (List Char))
    (h : ∀ core ∈ cores, findMarker core = none) :
    scanTokens (cores.map segOf).flatten = cores.map segOf := by
  rw [← List.append_nil ((cores.map segOf).flatten)]
  exact scanTokens_join_frag cores [] h rfl

/-! ## Lemmas: store interactions -/

theorem removePolicies_filter (policies : List EndpointPolicy) :
    removePolicies policies (policies.filter (fun pol => pol.PolicyKind == L4Proxy)) =
      policies.filter (fun pol => !(pol.PolicyKind == L4Proxy)) := by
  rw [removePolicies]
  apply List.filter_congr
  intro pol hpol
  by_cases hk : pol.PolicyKind == L4Proxy
  · have hmem : pol ∈ policies.filter (fun q => q.PolicyKind == L4Proxy) :=
      List.mem_filter.mpr ⟨hpol, hk⟩
    simp [hmem, hk]
  · have hnmem : pol ∉ policies.filter (fun q => q.PolicyKind == L4Proxy) := by
      intro hmem
      exact hk (List.mem_filter.mp hmem).2
    simp [hnmem, hk]

theorem atoi_malformed (s : List Char) (h : malformedInt s) : atoi s = 0 := by
  rw [malformedInt] at h
  rw [atoi]
  by_cases hp : s.head? = some '+'
  · rw [if_pos (Or.inl hp)] at h
    rw [if_pos hp, h]
    rfl
  · by_cases hm : s.head? = some '-'
    · rw [if_pos (Or.inr hm)] at h
      rw [if_neg hp, if_pos hm, h]
      rfl
    · rw [if_neg (by push_neg; exact ⟨hp, hm⟩)] at h
      rw [if_neg hp, if_neg hm, h]
      rfl

theorem uint16OfInt_coe (n : Nat) (h : n < 65536) : uint16OfInt (n : Int) = n := by
  rw [uint16OfInt]
  omega

theorem uint8OfInt_coe (n : Nat) (h : n < 256) : uint8OfInt (n : Int) = n := by
  rw [uint8OfInt]
  omega

/-! ## The claims -/

/-- C1: for every Policy with a nonzero proxy port (and the field ranges
that its Go types uint16 / uint8 impose), decoding the wire record that
AddPolicy builds, via hcnPolicyToAPIPolicy, yields the policy back with
every field unchanged except Protocol, which is the fixed value 6 (TCP)
on both sides. -/
theorem policy_codec_roundtrip (p : Policy) (hport : p.ProxyPort ≠ 0)
    (hport16 : p.ProxyPort < 65536) (hprio : p.Priority < 256) :
    hcnPolicyToAPIPolicy { PolicyKind := L4Proxy, Settings := addPolicySetting p } =
      some { p with Protocol := 6 } := by
  rw [hcnPolicyToAPIPolicy, if_pos rfl]
  congr 1
  have hPort : uint16OfInt (atoi (itoa p.ProxyPort)) = p.ProxyPort := by
    rw [atoi_itoa]
    exact uint16OfInt_coe p.ProxyPort hport16
  have hPrio : uint8OfNat p.Priority = p.Priority := by
    rw [uint8OfNat]; omega
  have hProt : uint8OfInt (atoi (itoa 6)) = 6 := by
    rw [atoi_itoa]
    exact uint8OfInt_coe 6 (by omega)
  show Policy.mk (uint16OfInt (atoi (itoa p.ProxyPort))) p.UserSID p.CompartmentID
      (parseIP (formatIP p.LocalAddr)) (parseIP (formatIP p.RemoteAddr))
      (uint8OfNat p.Priority) (uint8OfInt (atoi (itoa 6))) =
    Policy.mk p.ProxyPort p.UserSID p.CompartmentID p.LocalAddr p.RemoteAddr p.Priority 6
  rw [hPort, hPrio, hProt, parseIP_formatIP, parseIP_formatIP]

/-- Closed instance of the codec round trip at a fully populated policy. -/
theorem policy_codec_roundtrip_witness :
    ((Policy.mk 8000 "S-1-5-18" 2 (some ⟨10, 0, 0, 1⟩) none 3 17).ProxyPort ≠ 0 ∧
      (Policy.mk 8000 "S-1-5-18" 2 (some ⟨10, 0, 0, 1⟩) none 3 17).ProxyPort < 65536 ∧
      (Policy.mk 8000 "S-1-5-18" 2 (some ⟨10, 0, 0, 1⟩) none 3 17).Priority < 256) ∧
    hcnPolicyToAPIPolicy
        { PolicyKind := L4Proxy,
          Settings := addPolicySetting (Policy.mk 8000 "S-1-5-18" 2 (some ⟨10, 0, 0, 1⟩) none 3 17) } =
      some { Policy.mk 8000 "S-1-5-18" 2 (some ⟨10, 0, 0, 1⟩) none 3 17 with Protocol := 6 } :=
  ⟨⟨by decide, by decide, by decide⟩,
    policy_codec_roundtrip (Policy.mk 8000 "S-1-5-18" 2 (some ⟨10, 0, 0, 1⟩) none 3 17)
      (by decide) (by decide) (by decide)⟩

/-- C2 fails as stated: for the concatenation of the two well-formed
records below, each ending at its terminal newline-plus-brace marker, the
split function does not yield the two records as tokens. The marker sits
at offset 2, yet the token is the first 5 bytes (i + 3, not i + 2), so
the first token swallows the opening byte of the second record and the
second record is dropped entirely. -/
theorem scanner_claim_counterexample :
    scanTokens (['{', 'a', '\n', '}'] ++ ['{', 'b', '\n', '}']) ≠
      [['{', 'a', '\n', '}'], ['{', 'b', '\n', '}']] ∧
    scanTokens (['{', 'a', '\n', '}'] ++ ['{', 'b', '\n', '}']) =
      [['{', 'a', '\n', '}', '{']] ∧
    (splitEndpoint (['{', 'a', '\n', '}'] ++ ['{', 'b', '\n', '}']) true).advance = 5 := by
  refine ⟨by decide, by decide, by decide⟩

/-- C2 (amended): when the marker is found at offset i the token is the
buffer's first i + 3 bytes and the scanner advances past exactly i + 3
bytes; consequently, for a stream that is the concatenation of N records
each of the shape body plus newline, closing brace, newline (the newline
hnsdiag prints after the brace included), with no body containing the
marker, the scanner yields exactly N tokens in stream order, each token
being exactly one record's bytes. -/
theorem scanner_tokens_amended (cores : List (List Char))
    (h : ∀ core ∈ cores, findMarker core = none) :
    scanTokens (cores.map segOf).flatten = cores.map segOf ∧
    (scanTokens (cores.map segOf).flatten).length = cores.length ∧
    (∀ (data : List Char) (i : Nat), findMarker data = some i →
      splitEndpoint data true = ⟨i + 3, some (data.take (i + 3))⟩) := by
  refine ⟨scanTokens_join cores h, ?_, ?_⟩
  · rw [scanTokens_join cores h, List.length_map]
  · intro data i hdi
    have hne : data ≠ [] := by
      intro he
      subst he
      simp [findMarker] at hdi
    exact splitEndpoint_found data i hne hdi

/-- Closed instance of the amended scanner claim on two records. -/
theorem scanner_tokens_amended_witness :
    (∀ core ∈ [['{', 'a'], ['{', 'b']], findMarker core = none) ∧
    scanTokens (([['{', 'a'], ['{', 'b']].map segOf).flatten) =
      [['{', 'a'], ['{', 'b']].map segOf :=
  ⟨by decide, (scanner_tokens_amended [['{', 'a'], ['{', 'b']] (by decide)).1⟩

/-- C3 fails as stated: the stream consisting of the single well-formed
record below, whose text ends at its terminal newline-plus-brace marker,
yields zero tokens rather than exactly one, because the computed advance
(marker offset plus 3) exceeds the remaining data and the scanner stops
with ErrAdvanceTooFar. -/
theorem scanner_edge_claim_counterexample :
    scanTokens ['{', 'a', '\n', '}'] ≠ [['{', 'a', '\n', '}']] ∧
    scanTokens ['{', 'a', '\n', '}'] = [] := by
  refine ⟨by decide, by decide⟩

/-- C3 (amended): the scanner, a total function in the model, never
panics: an empty stream yields zero tokens; a single well-formed record
followed by the newline hnsdiag prints after the closing brace yields
exactly one token, the record's bytes including that newline; and a
stream of such records followed by an incomplete trailing fragment that
lacks the marker yields tokens for all complete records and then ends the
sequence, silently dropping the fragment. -/
theorem scanner_edge_cases_amended :
    scanTokens [] = [] ∧
    (∀ core, findMarker core = none → scanTokens (segOf core) = [segOf core]) ∧
    (∀ (cores : List (List Char)) (frag : List Char),
      (∀ core ∈ cores, findMarker core = none) → findMarker frag = none →
      scanTokens ((cores.map segOf).flatten ++ frag) = cores.map segOf) := by
  refine ⟨rfl, ?_, scanTokens_join_frag⟩
  intro core hc
  exact scanTokens_cons core [] hc

/-- Closed instance of the amended edge-case claim: one record plus a
truncated fragment. -/
theorem scanner_edge_cases_amended_witness :
    ((∀ core ∈ [['{', 'a']], findMarker core = none) ∧
      findMarker ['{', 'b'] = none) ∧
    scanTokens (([['{', 'a']].map segOf).flatten ++ ['{', 'b']) = [['{', 'a']].map segOf :=
  ⟨⟨by decide, by decide⟩,
    (scanner_edge_cases_amended.2.2) [['{', 'a']] ['{', 'b'] (by decide) (by decide)⟩

/-- C4: for every workload identifier and every decoded record stream,
GetEndpointFromContainer returns the endpoint ID of the first record in
stream order whose attached-workload list contains an exact match of the
identifier, and fails with the not-found error otherwise; in particular it
resolves c3 to ep2 and fails for c9 on the spec's two-record example. -/
theorem resolver_first_match :
    (∀ (containerID : String) (endpoints : List HnsEndpoint),
      GetEndpointFromContainer containerID endpoints =
        match endpoints.find? (fun e => e.SharedContainers.contains containerID) with
        | some e => .ok e.ID
        | none => .error "could not find an endpoint attached to that container") ∧
    GetEndpointFromContainer "c3" [⟨"ep1", ["c1"]⟩, ⟨"ep2", ["c2", "c3"]⟩] = .ok "ep2" ∧
    GetEndpointFromContainer "c9" [⟨"ep1", ["c1"]⟩, ⟨"ep2", ["c2", "c3"]⟩] =
      .error "could not find an endpoint attached to that container" := by
  refine ⟨?_, rfl, rfl⟩
  intro containerID endpoints
  induction endpoints with
  | nil => rfl
  | cons e rest ih =>
    by_cases h : e.SharedContainers.contains containerID
    · rw [GetEndpointFromContainer, if_pos h,
        @List.find?_cons_of_pos _ (fun x => x.SharedContainers.contains containerID) e rest h]
    · rw [GetEndpointFromContainer, if_neg h, ih,
        @List.find?_cons_of_neg _ (fun x => x.SharedContainers.contains containerID) e rest h]

/-- C5: with the store responding successfully, ClearPolicies reports as
removed exactly the number of proxy-kind policies the endpoint held, the
remove request names only the proxy-kind policies, and the store honouring
that request leaves exactly the non-proxy-kind policies in place. -/
theorem clear_removes_only_proxy (hcn : HcnModel) (eid : String)
    (ep : HostComputeEndpoint)
    (hget : hcn.getEndpointByID eid = .ok ep)
    (hmod : hcn.modifyEndpointSettings eid
        { ResourceType := EndpointResourceTypePolicy
          RequestType := RequestTypeRemove
          Settings :=
            { Policies := ep.Policies.filter (fun pol => pol.PolicyKind == L4Proxy) } } =
      .ok ()) :
    ClearPolicies hcn eid =
      ((ep.Policies.filter (fun pol => pol.PolicyKind == L4Proxy)).length, none) ∧
    removePolicies ep.Policies
        (ep.Policies.filter (fun pol => pol.PolicyKind == L4Proxy)) =
      ep.Policies.filter (fun pol => !(pol.PolicyKind == L4Proxy)) := by
  refine ⟨?_, removePolicies_filter ep.Policies⟩
  rw [ClearPolicies, listPolicies, hget]
  show (match hcn.modifyEndpointSettings eid
      { ResourceType := EndpointResourceTypePolicy
        RequestType := RequestTypeRemove
        Settings :=
          { Policies := ep.Policies.filter (fun pol => pol.PolicyKind == L4Proxy) } } with
    | .ok _ => ((ep.Policies.filter (fun pol => pol.PolicyKind == L4Proxy)).length,
        (none : Option String))
    | .error e => ((ep.Policies.filter (fun pol => pol.PolicyKind == L4Proxy)).length,
        some e)) =
    ((ep.Policies.filter (fun pol => pol.PolicyKind == L4Proxy)).length,
      (none : Option String))
  rw [hmod]

/-- Closed instance of the clear-all claim on the sample endpoint holding
three proxy-kind policies and one non-proxy policy: three removed, the
non-proxy policy intact. -/
theorem clear_removes_only_proxy_witness :
    (sampleStore.getEndpointByID "ep" = .ok sampleEndpoint ∧
      sampleStore.modifyEndpointSettings "ep"
          { ResourceType := EndpointResourceTypePolicy
            RequestType := RequestTypeRemove
            Settings :=
              { Policies :=
                  sampleEndpoint.Policies.filter (fun pol => pol.PolicyKind == L4Proxy) } } =
        .ok ()) ∧
    ClearPolicies sampleStore "ep" = (3, none) ∧
    removePolicies sampleEndpoint.Policies
        (sampleEndpoint.Policies.filter (fun pol => pol.PolicyKind == L4Proxy)) =
      [sampleAclPolicy] :=
  ⟨⟨rfl, rfl⟩,
    (clear_removes_only_proxy sampleStore "ep" sampleEndpoint rfl rfl).1,
    (clear_removes_only_proxy sampleStore "ep" sampleEndpoint rfl rfl).2⟩

/-- C6: validatePolicy accepts a policy exactly when its proxy port is
nonzero, whatever the other fields hold. -/
theorem validatePolicy_iff (p : Policy) : validatePolicy p = none ↔ p.ProxyPort ≠ 0 := by
  rw [validatePolicy]
  by_cases h : p.ProxyPort = 0 <;> simp [h]

/-- C7: the encoded wire record's protocol field is the decimal string 6
for every input policy, and the caller-supplied protocol value has no
influence on the encoded record at all. -/
theorem protocol_always_six (p : Policy) (q : Nat) :
    (addPolicySetting p).FilterTuple.Protocols = ['6'] ∧
    addPolicySetting { p with Protocol := q } = addPolicySetting p :=
  ⟨rfl, rfl⟩

/-- C8: a policy with proxy port zero makes AddPolicy return the
validation error with an empty store-interaction trace: no endpoint
lookup and no policy application is attempted. -/
theorem addPolicy_validates_first (hcn : HcnModel) (eid : String) (p : Policy)
    (h : p.ProxyPort = 0) :
    AddPolicy hcn eid p = (.error "policy has invalid proxy port number 0", []) := by
  rw [AddPolicy, validatePolicy, if_pos h]

/-- Closed instance of the validation-first claim. -/
theorem addPolicy_validates_first_witness :
    (Policy.mk 0 "" 0 none none 0 0).ProxyPort = 0 ∧
    AddPolicy sampleStore "ep" (Policy.mk 0 "" 0 none none 0 0) =
      (.error "policy has invalid proxy port number 0", []) :=
  ⟨rfl, addPolicy_validates_first sampleStore "ep" (Policy.mk 0 "" 0 none none 0 0) rfl⟩

/-- C9: decoding a proxy-kind wire record never raises an error: a
malformed port or protocol string decodes to zero, and an empty address
string decodes to the absent address. -/
theorem decode_malformed_is_coerced (s : L4ProxyPolicySetting) :
    (malformedInt s.Port → (hcnPolicySettingToAPIPolicy s).ProxyPort = 0) ∧
    (malformedInt s.FilterTuple.Protocols → (hcnPolicySettingToAPIPolicy s).Protocol = 0) ∧
    (s.FilterTuple.LocalAddresses = [] → (hcnPolicySettingToAPIPolicy s).LocalAddr = none) ∧
    (s.FilterTuple.RemoteAddresses = [] → (hcnPolicySettingToAPIPolicy s).RemoteAddr = none) ∧
    hcnPolicyToAPIPolicy { PolicyKind := L4Proxy, Settings := s } =
      some (hcnPolicySettingToAPIPolicy s) := by
  refine ⟨?_, ?_, ?_, ?_, ?_⟩
  · intro h
    show uint16OfInt (atoi s.Port) = 0
    rw [atoi_malformed s.Port h]
    rfl
  · intro h
    show uint8OfInt (atoi s.FilterTuple.Protocols) = 0
    rw [atoi_malformed s.FilterTuple.Protocols h]
    rfl
  · intro h
    show parseIP s.FilterTuple.LocalAddresses = none
    rw [h]
    rfl
  · intro h
    show parseIP s.FilterTuple.RemoteAddresses = none
    rw [h]
    rfl
  · rw [hcnPolicyToAPIPolicy, if_pos rfl]

/-- Closed instance of the malformed-decode claim on a record with a
non-numeric port, a non-numeric protocol, and empty address strings. -/
theorem decode_malformed_is_coerced_witness :
    (malformedInt ['a'] ∧ malformedInt ['1', 'x']) ∧
    (hcnPolicySettingToAPIPolicy ⟨"WFP", ['a'], "", 0, ⟨[], [], ['1', 'x'], 0⟩⟩).ProxyPort = 0 ∧
    (hcnPolicySettingToAPIPolicy ⟨"WFP", ['a'], "", 0, ⟨[], [], ['1', 'x'], 0⟩⟩).Protocol = 0 ∧
    (hcnPolicySettingToAPIPolicy ⟨"WFP", ['a'], "", 0, ⟨[], [], ['1', 'x'], 0⟩⟩).LocalAddr = none ∧
    (hcnPolicySettingToAPIPolicy ⟨"WFP", ['a'], "", 0, ⟨[], [], ['1', 'x'], 0⟩⟩).RemoteAddr = none :=
  ⟨⟨by unfold malformedInt; decide, by unfold malformedInt; decide⟩,
    (decode_malformed_is_coerced ⟨"WFP", ['a'], "", 0, ⟨[], [], ['1', 'x'], 0⟩⟩).1
      (by unfold malformedInt; decide),
    (decode_malformed_is_coerced ⟨"WFP", ['a'], "", 0, ⟨[], [], ['1', 'x'], 0⟩⟩).2.1
      (by unfold malformedInt; decide),
    (decode_malformed_is_coerced ⟨"WFP", ['a'], "", 0, ⟨[], [], ['1', 'x'], 0⟩⟩).2.2.1 rfl,
    (decode_malformed_is_coerced ⟨"WFP", ['a'], "", 0, ⟨[], [], ['1', 'x'], 0⟩⟩).2.2.2.1 rfl⟩

/-- C10: when the endpoint lookup succeeds and finds the proxy-kind
policies but the store's remove call fails, ClearPolicies returns the
count of policies it tried to remove together with the store's error, so
a caller can observe a nonzero removed-count alongside an error. -/
theorem clear_count_with_error (hcn : HcnModel) (eid : String)
    (ep : HostComputeEndpoint) (e : String)
    (hget : hcn.getEndpointByID eid = .ok ep)
    (hmod : hcn.modifyEndpointSettings eid
        { ResourceType := EndpointResourceTypePolicy
          RequestType := RequestTypeRemove
          Settings :=
            { Policies := ep.Policies.filter (fun pol => pol.PolicyKind == L4Proxy) } } =
      .error e) :
    ClearPolicies hcn eid =
      ((ep.Policies.filter (fun pol => pol.PolicyKind == L4Proxy)).length, some e) := by
  rw [ClearPolicies, listPolicies, hget]
  show (match hcn.modifyEndpointSettings eid
      { ResourceType := EndpointResourceTypePolicy
        RequestType := RequestTypeRemove
        Settings :=
          { Policies := ep.Policies.filter (fun pol => pol.PolicyKind == L4Proxy) } } with
    | .ok _ => ((ep.Policies.filter (fun pol => pol.PolicyKind == L4Proxy)).length,
        (none : Option String))
    | .error err => ((ep.Policies.filter (fun pol => pol.PolicyKind == L4Proxy)).length,
        some err)) =
    ((ep.Policies.filter (fun pol => pol.PolicyKind == L4Proxy)).length, some e)
  rw [hmod]

/-- Closed instance of the count-with-error claim: the sample store fails
the remove call, yet the reported count is 3, not zero. -/
theorem clear_count_with_error_witness :
    (sampleFailingStore.getEndpointByID "ep" = .ok sampleEndpoint ∧
      sampleFailingStore.modifyEndpointSettings "ep"
          { ResourceType := EndpointResourceTypePolicy
            RequestType := RequestTypeRemove
            Settings :=
              { Policies :=
                  sampleEndpoint.Policies.filter (fun pol => pol.PolicyKind == L4Proxy) } } =
        .error "store rejected the remove request") ∧
    ClearPolicies sampleFailingStore "ep" = (3, some "store rejected the remove request") ∧
    (3 : Nat) ≠ 0 :=
  ⟨⟨rfl, rfl⟩,
    clear_count_with_error sampleFailingStore "ep" sampleEndpoint
      "store rejected the remove request" rfl rfl,
    by decide⟩

end Proxyctl
